import Mathlib

/-!
Verification of the `sparse-lm` base estimator (`src/sparselm/model/_base.py`).

The development shallowly embeds the module's data model and operations:
matrices and vectors are rational lists, cvxpy expressions are a small
symbolic language with a rational evaluator, and the mutable estimator
attributes (`canonicals_`, `cached_X_`, `cached_y_`, `coef_`, `intercept_`)
become fields of an explicit state record threaded through `fit`.
External collaborators (sklearn preprocessing, the cvxpy solver backend)
are passed in as function records, mirroring their black-box role.
Python object identity of the problem descriptor is modelled by a
freshness counter: every `generate_problem` call stamps the descriptor
with a new id.
-/

namespace SparseLM

/-- Dense matrix: list of rows of rationals. -/
abbrev Mat := List (List ℚ)

/-- Dense vector of rationals. -/
abbrev Vec := List ℚ

/-- Number of rows (`X.shape[0]`). -/
def nrows (X : Mat) : Nat := X.length

/-- Number of columns (`X.shape[1]`), taken from the first row. -/
def ncols (X : Mat) : Nat := (X.headD []).length

/-- Dot product of two vectors (zip semantics). -/
def dot (a b : Vec) : ℚ := (List.zipWith (· * ·) a b).sum

/-- Matrix–vector product `W @ v`. -/
def matVec (W : Mat) (v : Vec) : Vec := W.map (fun row => dot row v)

/-- `cvxpy.sum_squares` of a vector. -/
def sumSq (v : Vec) : ℚ := (v.map (fun q => q * q)).sum

/-- `np.eye n`: the n × n identity matrix. -/
def eye (n : Nat) : Mat :=
  (List.range n).map (fun i => (List.range n).map (fun j => if i = j then (1 : ℚ) else 0))

/-- Elementwise division of two vectors (used by `_set_intercept`). -/
def zipDiv (a b : Vec) : Vec := List.zipWith (· / ·) a b

/-- Association-list lookup by string key (Python attribute / dict access). -/
def alookup {α : Type} : List (String × α) → String → Option α
  | [], _ => none
  | (k, v) :: rest, n => if k = n then some v else alookup rest n

/-- Replace the value bound to `n` (in-place mutation of an existing entry). -/
def updateAssoc {α : Type} : List (String × α) → String → α → List (String × α)
  | [], _, _ => []
  | (k, a) :: rest, n, v =>
    if k = n then (n, v) :: updateAssoc rest n v else (k, a) :: updateAssoc rest n v

/-- Insert-or-update for Python dict assignment `d[k] = v`. -/
def setAssoc {α : Type} (l : List (String × α)) (n : String) (v : α) : List (String × α) :=
  if (alookup l n).isSome then updateAssoc l n v else l ++ [(n, v)]

/-- A Python value as it can appear as a hyperparameter (`get_params`) value. -/
inductive PValue
  /-- a numeric scalar -/
  | scalar (q : ℚ)
  /-- a 1-D array or sequence -/
  | arrVal (v : Vec)
  /-- a bool -/
  | boolVal (b : Bool)
  /-- a str -/
  | strVal (s : String)
  /-- a dict -/
  | dictVal (d : List (String × ℚ))
  /-- Python `None` -/
  | noneVal
  /-- some object of any other type (not a dict, not None, not numeric) -/
  | otherVal
deriving DecidableEq, Repr

/-- The `solver_options` attribute: a dict, or an object of some other type.
`None` is modelled by wrapping in `Option`. -/
inductive SolverOptions
  | dict (d : List (String × ℚ))
  | notDict
deriving DecidableEq, Repr

/-- Which ends of an sklearn `Interval` are closed. -/
inductive ClosedKind
  | leftC | rightC | bothC | neitherC
deriving DecidableEq, Repr

/-- The numeric type of an sklearn `Interval` (`Integral` or `Real`). -/
inductive NumKind
  | integralK | realK
deriving DecidableEq, Repr

/-- sklearn parameter-validation constraints, as produced by `make_constraint`
for the declarations used in this module: `"boolean"`, `Options(str, ...)`,
`dict`, `None`, `"array-like"`, and `Interval`. -/
inductive SkConstraint
  | booleanC
  | optionsC (opts : List String)
  | dictC
  | noneC
  | arrayLikeC
  | intervalC (ty : NumKind) (left right : Option ℚ) (closed : ClosedKind)
deriving DecidableEq, Repr

/-- Is the left end of the interval closed (`closed in ("left", "both")`)? -/
def closedLeft : ClosedKind → Bool
  | .leftC => true
  | .bothC => true
  | _ => false

/-- Is the right end of the interval closed (`closed in ("right", "both")`)? -/
def closedRight : ClosedKind → Bool
  | .rightC => true
  | .bothC => true
  | _ => false

/-- Membership of a rational in an sklearn `Interval`. -/
def intervalMem (ty : NumKind) (l r : Option ℚ) (closed : ClosedKind) (q : ℚ) : Bool :=
  (match ty with
   | .integralK => q.den == 1
   | .realK => true) &&
  (match l with
   | none => true
   | some lv => if closedLeft closed then decide (lv ≤ q) else decide (lv < q)) &&
  (match r with
   | none => true
   | some rv => if closedRight closed then decide (q ≤ rv) else decide (q < rv))

/-- `constraint.is_satisfied_by(value)` for each modelled constraint. -/
def satisfies (v : PValue) : SkConstraint → Bool
  | .booleanC => match v with | .boolVal _ => true | _ => false
  | .optionsC opts => match v with | .strVal s => opts.contains s | _ => false
  | .dictC => match v with | .dictVal _ => true | _ => false
  | .noneC => match v with | .noneVal => true | _ => false
  | .arrayLikeC => match v with | .arrVal _ => true | _ => false
  | .intervalC ty l r closed => match v with
    | .scalar q => intervalMem ty l r closed q
    | _ => false

/-- Keyword arguments accumulated for a `cp.Parameter` in `_generate_params`. -/
structure ParamKwargs where
  shape : Option (List Nat) := none
  boolean : Bool := false
  integer : Bool := false
  nonneg : Bool := false
  pos : Bool := false
  nonpos : Bool := false
  neg : Bool := false
deriving DecidableEq, Repr

/-- A live `cp.Parameter` handle: its current value and its algebraic hints. -/
structure CvxParam where
  value : PValue
  kwargs : ParamKwargs
deriving DecidableEq, Repr

/-- A `cp.Variable`: allocation identity plus length. -/
structure VarT where
  vid : Nat
  len : Nat
deriving DecidableEq, Repr

/-- Symbolic cvxpy scalar expressions as built by this module. -/
inductive Expr
  | const (q : ℚ)
  | paramRef (name : String)
  | add (a b : Expr)
  | mul (a b : Expr)
  /-- `cp.sum_squares (W @ v)` for a decision variable `v` -/
  | ssMatVec (W : Mat) (v : VarT)
deriving DecidableEq, Repr

/-- Evaluate an expression given values for the decision variables (by id)
and for the named cvxpy parameters. -/
def Expr.eval (venv : Nat → Vec) (penv : String → ℚ) : Expr → ℚ
  | .const q => q
  | .paramRef n => penv n
  | .add a b => a.eval venv penv + b.eval venv penv
  | .mul a b => a.eval venv penv * b.eval venv penv
  | .ssMatVec W v => sumSq (matVec W (venv v.vid))

/-- Optimization sense (`cp.Minimize` / `cp.Maximize`). -/
inductive Sense
  | minimize | maximize
deriving DecidableEq, Repr

/-- Auxiliary namespace: named derived variables/expressions. -/
abbrev AuxNS := List (String × Expr)

/-- A `cp.Problem`: a sense-wrapped objective combined with constraints. -/
structure Problem where
  sense : Sense
  objective : Expr
  constraints : Option (List Expr)
deriving DecidableEq, Repr

/-- `CVXCanonicals`: the problem descriptor.  The `cid` field models Python
object identity: `generate_problem` always stamps a fresh id. -/
structure Canon where
  cid : Nat
  problem : Problem
  objective : Expr
  beta : VarT
  parameters : List (String × CvxParam)
  auxiliaries : Option AuxNS
  constraints : Option (List Expr)
deriving DecidableEq, Repr

/-- The mutable estimator state: constructor options, subclass hyperparameters,
the class-level cvx constraint declaration, and the fitted attributes.
`fresh` supplies ids for newly allocated descriptors and variables. -/
structure EstState where
  fit_intercept : Bool
  copy_X : Bool
  warm_start : Bool
  solver : Option String
  solver_options : Option SolverOptions
  /-- subclass hyperparameters (e.g. `eta`) and their current values -/
  extraParams : List (String × PValue)
  /-- `_cvx_parameter_constraints` (None or a dict) -/
  cvxConstraints : Option (List (String × List SkConstraint))
  canonicals : Option Canon
  cached_X : Option Mat
  cached_y : Option Vec
  coef : Option Vec
  intercept : Option ℚ
  fresh : Nat
deriving DecidableEq, Repr

/-- The polymorphic builder hooks a concrete estimator implements
(`_generate_auxiliaries`, `_generate_objective`, `_generate_constraints`). -/
structure Hooks where
  genAux : Mat → Vec → VarT → List (String × CvxParam) → Option AuxNS
  genObjective : Mat → Vec → VarT → List (String × CvxParam) → Option AuxNS → Expr
  genConstraints : Mat → Vec → VarT → List (String × CvxParam) → Option AuxNS → Option (List Expr)

/-- Output of sklearn's `_preprocess_data`. -/
structure PreData where
  X1 : Mat
  y1 : Vec
  Xoff : Vec
  yoff : ℚ
  Xscale : Vec
deriving DecidableEq, Repr

/-- Data handed from preprocessing to problem construction. -/
structure Prepared where
  X2 : Mat
  y2 : Vec
  Xoff : Vec
  yoff : ℚ
  Xscale : Vec
deriving DecidableEq, Repr

/-- External collaborators: the installed-solver registry, sklearn's
`_preprocess_data` and `_rescale_data`, and the cvxpy solve call.
`solve` returns the value of the decision variable after solving
(`none` models a solve that finished without producing a value, e.g. an
infeasible problem); a `.error` models a raised solver exception. -/
structure Externals where
  installedSolvers : List String
  preprocess : Mat → Vec → Bool → Bool → Option Vec → PreData
  rescale : Mat → Vec → Vec → Mat × Vec
  solve : Problem → Option String → Bool → List (String × ℚ) → Except Unit (Option Vec)

/-- Errors `fit` can raise, in terms of the Python exception that occurs. -/
inductive FitError
  /-- `_validate_data` rejected the shapes/dtypes -/
  | validationError
  /-- `_check_sample_weight` rejected the weights -/
  | weightError
  /-- `validate_parameter_constraints` rejected the named hyperparameter -/
  | invalidParameter (name : String)
  /-- `parameter in None` raised `TypeError` in `_set_param_values` -/
  | noneIterTypeError
  /-- `getattr` failed for the named attribute -/
  | attributeError (name : String)
  /-- `solver_options must be a dictionary` `TypeError` -/
  | solverOptionsTypeError
  /-- the solver raised -/
  | solverError
  /-- `_set_intercept` raised on a `None` coefficient value -/
  | interceptTypeError
deriving DecidableEq, Repr

/-- `get_params(deep=False)`: the constructor options of `CVXEstimator`
plus the subclass hyperparameters, as name/value pairs. -/
def getParams (st : EstState) : List (String × PValue) :=
  [("fit_intercept", .boolVal st.fit_intercept),
   ("copy_X", .boolVal st.copy_X),
   ("warm_start", .boolVal st.warm_start),
   ("solver", match st.solver with | none => .noneVal | some s => .strVal s),
   ("solver_options", match st.solver_options with
     | none => .noneVal
     | some (.dict d) => .dictVal d
     | some .notDict => .otherVal)] ++ st.extraParams

/-- `CVXEstimator._parameter_constraints`: the class-level constraint
declaration for the base constructor options.  The installed-solver
registry is queried once at class-definition time, hence the argument. -/
def baseParameterConstraints (installed : List String) : List (String × List SkConstraint) :=
  [("fit_intercept", [.booleanC]),
   ("copy_X", [.booleanC]),
   ("warm_start", [.booleanC]),
   ("solver", [.optionsC installed, .noneC]),
   ("solver_options", [.dictC, .noneC])]

/-- The constraint list governing a hyperparameter after the merge
`self._parameter_constraints | self._cvx_parameter_constraints`
(the cvx declaration wins on shared keys; when it is `None` only the base
declaration applies). -/
def constraintsFor (installed : List String) (st : EstState) (n : String) :
    Option (List SkConstraint) :=
  match st.cvxConstraints with
  | none => alookup (baseParameterConstraints installed) n
  | some cs =>
    match alookup cs n with
    | some cl => some cl
    | none => alookup (baseParameterConstraints installed) n

/-- Does this hyperparameter value satisfy its declared constraints?
(sklearn skips parameters with no declaration.) -/
def paramOk (installed : List String) (st : EstState) (n : String) (v : PValue) : Bool :=
  match constraintsFor installed st n with
  | none => true
  | some cl => cl.any (satisfies v)

/-- Walk the parameters in order and return the first one whose declared
constraints are all violated (`validate_parameter_constraints` raises
`InvalidParameterError` at the first offender). -/
def firstFailAux (installed : List String) (st : EstState) :
    List (String × PValue) → Option String
  | [] => none
  | (n, v) :: rest =>
    if paramOk installed st n v then firstFailAux installed st rest else some n

/-- `CVXEstimator._validate_params`: `none` when validation passes, otherwise
the name of the first offending hyperparameter. -/
def validateFirstFail (installed : List String) (st : EstState) : Option String :=
  firstFailAux installed st (getParams st)

/-- One pass of the kwargs-inference loop in `_generate_params`:
apply a single sklearn constraint object to the accumulated kwargs. -/
def applyConstraint (pv : PValue) (kw : ParamKwargs) : SkConstraint → ParamKwargs
  | .arrayLikeC =>
    { kw with shape := some (match pv with | .arrVal l => [l.length] | _ => []) }
  | .booleanC => { kw with boolean := true }
  | .dictC => kw
  | .noneC => kw
  | .optionsC _ => kw
  | .intervalC ty l r closed =>
    let kw1 := match ty with
      | .integralK => { kw with integer := true }
      | .realK => kw
    let kw2 := match l with
      | none => kw1
      | some lv =>
        if lv = 0 then
          (if closedLeft closed then { kw1 with nonneg := true }
           else { kw1 with pos := true })
        else if 0 < lv then { kw1 with pos := true }
        else kw1
    match r with
    | none => kw2
    | some rv =>
      if rv = 0 then
        (if closedRight closed then { kw2 with nonpos := true }
         else { kw2 with neg := true })
      else if rv < 0 then { kw2 with neg := true }
      else kw2

/-- The kwargs accumulated over a hyperparameter's whole constraint list
(the `for constraint in constraints` loop of `_generate_params`). -/
def foldKwargs (pv : PValue) (cl : List SkConstraint) : ParamKwargs :=
  cl.foldl (applyConstraint pv) {}

/-- `CVXEstimator._generate_params`: one `cp.Parameter` per hyperparameter
declared in `_cvx_parameter_constraints`, initialized from the current value,
with kwargs inferred from the constraints.  The `cp.Parameter` assignment
sits inside the constraint loop, so a hyperparameter with an empty
constraint list yields no parameter.  `X` and `y` are accepted but unused,
as in the source.  `genParamStep` is the body of the outer loop for one
hyperparameter. -/
def genParamStep (cs : List (String × List SkConstraint))
    (acc : List (String × CvxParam)) (nv : String × PValue) : List (String × CvxParam) :=
  match alookup cs nv.1 with
  | none => acc
  | some cl =>
    if cl.isEmpty then acc
    else setAssoc acc nv.1 ⟨nv.2, foldKwargs nv.2 cl⟩

def generate_params (st : EstState) (_X : Mat) (_y : Vec) : List (String × CvxParam) :=
  let cs := match st.cvxConstraints with
    | none => []
    | some c => c
  (getParams st).foldl (genParamStep cs) []

/-- The broadcast rule of `_set_param_values`: a length-1 sequence is
broadcast over the parameter's existing value (`value * np.ones_like(...)`);
longer sequences and scalars are assigned directly. -/
def pushValue (old : PValue) (v : PValue) : PValue :=
  match v with
  | .arrVal l =>
    if l.length = 1 then
      match old with
      | .arrVal o => .arrVal (o.map (fun _ => l.headD 0))
      | _ => .arrVal l
    else .arrVal l
  | _ => v

/-- The loop of `_set_param_values` over `get_params(deep=False).items()`:
for each hyperparameter the membership test `parameter in
self._cvx_parameter_constraints` runs first — on `None` it raises
`TypeError`; for declared names the live handle is fetched
(`AttributeError` when missing) and its value overwritten. -/
def setParamList :
    List (String × PValue) → Option (List (String × List SkConstraint)) →
    List (String × CvxParam) → Except FitError (List (String × CvxParam))
  | [], _, ps => .ok ps
  | (n, v) :: rest, cons, ps =>
    match cons with
    | none => .error .noneIterTypeError
    | some cs =>
      if (alookup cs n).isSome then
        match alookup ps n with
        | none => .error (.attributeError n)
        | some h =>
          setParamList rest cons (updateAssoc ps n { h with value := pushValue h.value v })
      else setParamList rest cons ps

/-- `CVXEstimator._set_param_values` as a state transformer: mutates the
parameter handles inside the existing `canonicals_` in place. -/
def set_param_values (st : EstState) : Except FitError EstState :=
  match st.canonicals with
  | none => .error (.attributeError "canonicals_")
  | some c =>
    match setParamList (getParams st) st.cvxConstraints c.parameters with
    | .error e => .error e
    | .ok ps => .ok { st with canonicals := some { c with parameters := ps } }

/-- The descriptor `CVXEstimator.generate_problem` builds: a fresh decision
variable of length `X.shape[1]`, the translated parameters, then the builder
hooks in order (auxiliaries, objective, constraints), with the objective
wrapped in `cp.Minimize` together with the constraints. -/
def builtCanon (hooks : Hooks) (st : EstState) (X : Mat) (y : Vec) : Canon :=
  let beta : VarT := ⟨st.fresh, ncols X⟩
  let parameters := generate_params st X y
  let auxiliaries := hooks.genAux X y beta parameters
  let objective := hooks.genObjective X y beta parameters auxiliaries
  let constraints := hooks.genConstraints X y beta parameters auxiliaries
  let problem : Problem := ⟨.minimize, objective, constraints⟩
  ⟨st.fresh, problem, objective, beta, parameters, auxiliaries, constraints⟩

/-- `CVXEstimator.generate_problem`: build the descriptor and store it,
replacing `canonicals_` wholesale. -/
def generate_problem (hooks : Hooks) (st : EstState) (X : Mat) (y : Vec) : EstState :=
  { st with
    canonicals := some (builtCanon hooks st X y),
    fresh := st.fresh + 1 }

/-- Shape validation performed by `self._validate_data`: dense 2-D `X` with
at least one row and column, consistent row lengths, and a matching 1-D `y`. -/
def validData (X : Mat) (y : Vec) : Bool :=
  decide (0 < X.length) && decide (0 < ncols X) &&
  X.all (fun r => r.length == ncols X) && (y.length == X.length)

/-- Rescale the sample weights to sum to the number of samples
(`sample_weight * (X.shape[0] / np.sum(sample_weight))`). -/
def rescaleWeight (X : Mat) (w : Vec) : Vec :=
  w.map (fun q => q * ((X.length : ℚ) / w.sum))

/-- `_check_sample_weight` followed by the rescaling step of `fit`. -/
def checkWeights (X : Mat) : Option Vec → Except FitError (Option Vec)
  | none => .ok none
  | some w =>
    if w.length = X.length then .ok (some (rescaleWeight X w))
    else .error .weightError

/-- The input-preparation prefix of `fit`: shape validation, sample-weight
rescaling, `_preprocess_data`, and (when weights are given) `_rescale_data`. -/
def prepare (ext : Externals) (st : EstState) (X : Mat) (y : Vec) (sw : Option Vec) :
    Except FitError Prepared :=
  if validData X y then
    match checkWeights X sw with
    | .error e => .error e
    | .ok sw' =>
      let pd := ext.preprocess X y st.copy_X st.fit_intercept sw'
      match sw' with
      | none => .ok ⟨pd.X1, pd.y1, pd.Xoff, pd.yoff, pd.Xscale⟩
      | some w =>
        let r := ext.rescale pd.X1 pd.y1 w
        .ok ⟨r.1, r.2, pd.Xoff, pd.yoff, pd.Xscale⟩
  else .error .validationError

/-- Lines 171–172 of `fit`: rebuild when no descriptor exists or warm start
is disabled. -/
def buildDecision (hooks : Hooks) (st : EstState) (X2 : Mat) (y2 : Vec) : EstState :=
  if st.canonicals.isNone || !st.warm_start then generate_problem hooks st X2 y2 else st

/-- Lines 174–187 of `fit`: the warm-start branch.  The caches are assigned
only when the attributes do not yet exist; then either rebuild (data
changed) or push the current hyperparameter values into the live handles. -/
def warmStage (hooks : Hooks) (st1 : EstState) (X2 : Mat) (y2 : Vec) :
    Except (FitError × EstState) EstState :=
  if st1.warm_start then
    let st2 := { st1 with
      cached_X := some (st1.cached_X.getD X2),
      cached_y := some (st1.cached_y.getD y2) }
    if st2.cached_X ≠ some X2 ∨ st2.cached_y ≠ some y2 then
      .ok (generate_problem hooks st2 X2 y2)
    else
      match set_param_values st2 with
      | .error e => .error (e, st2)
      | .ok st3 => .ok st3
  else .ok st1

/-- Lines 189–191 of `fit`: default `solver_options` to `{}` and require a
dict. -/
def checkSolverOptions : Option SolverOptions → Except FitError (List (String × ℚ))
  | none => .ok []
  | some (.dict d) => .ok d
  | some .notDict => .error .solverOptionsTypeError

/-- Lines 189–194 of `fit`: the solve call (`_solve` returns
`canonicals_.beta.value`, which `fit` stores as `coef_`), followed by
`_set_intercept`: with an intercept, `coef_` is rescaled by `X_scale` and
the intercept recomputed from the offsets; otherwise the intercept is 0.
A `None` coefficient value makes `_set_intercept` raise after `coef_` was
already overwritten. -/
def solveStage (ext : Externals) (st3 : EstState) (p : Prepared) :
    Except (FitError × EstState) EstState :=
  match checkSolverOptions st3.solver_options with
  | .error e => .error (e, st3)
  | .ok opts =>
    match st3.canonicals with
    | none => .error (.attributeError "canonicals_", st3)
    | some c =>
      match ext.solve c.problem st3.solver st3.warm_start opts with
      | .error _ => .error (.solverError, st3)
      | .ok v =>
        let st4 := { st3 with coef := v }
        if st4.fit_intercept then
          match v with
          | none => .error (.interceptTypeError, st4)
          | some cv =>
            let cv2 := zipDiv cv p.Xscale
            .ok { st4 with coef := some cv2, intercept := some (p.yoff - dot p.Xoff cv2) }
        else .ok { st4 with intercept := some 0 }

/-- `fit` after input preparation: hyperparameter validation, the problem
build/reuse decision, the warm-start branch, and the solve. -/
def fitCore (ext : Externals) (hooks : Hooks) (st : EstState) (p : Prepared) :
    Except (FitError × EstState) EstState :=
  match validateFirstFail ext.installedSolvers st with
  | some n => .error (.invalidParameter n, st)
  | none =>
    let st1 := buildDecision hooks st p.X2 p.y2
    match warmStage hooks st1 p.X2 p.y2 with
    | .error es => .error es
    | .ok st3 => solveStage ext st3 p

/-- `CVXEstimator.fit`.  A raised Python exception is modelled as `.error`
carrying the estimator state at the moment of the raise. -/
def fit (ext : Externals) (hooks : Hooks) (st : EstState) (X : Mat) (y : Vec)
    (sw : Option Vec) : Except (FitError × EstState) EstState :=
  match prepare ext st X y sw with
  | .error e => .error (e, st)
  | .ok p => fitCore ext hooks st p

/-- `TikhonovMixin._generate_objective`: the user-set `tikhonov_w` attribute
is modelled as `Option (Option Mat)` (absent / present-but-None / a matrix);
`superObjective` is the next `_generate_objective` in the MRO chain. -/
def tikhonov_generate_objective
    (superObjective : Mat → Vec → VarT → List (String × CvxParam) → Option AuxNS → Expr)
    (tikhonov_w : Option (Option Mat))
    (X : Mat) (y : Vec) (beta : VarT) (parameters : List (String × CvxParam))
    (auxiliaries : Option AuxNS) : Expr :=
  let tw := match tikhonov_w with
    | some (some w) => w
    | _ => eye (ncols X)
  let c0 : ℚ := 2 * (X.length : ℚ)
  .add (superObjective X y beta parameters auxiliaries)
    (.mul (.mul (.const c0) (.paramRef "eta")) (.ssMatVec tw beta))

/-- The weighting matrix as the specification words it: "the user-supplied
tikhonov_w if set and not None, and the n_features identity matrix
otherwise". -/
def specTikhonovW (tikhonov_w : Option (Option Mat)) (n_features : Nat) : Mat :=
  match tikhonov_w with
  | some (some w) => w
  | _ => eye n_features

/-! Concrete collaborators and states used to instantiate the theorems. -/

/-- Pass-through preprocessing, identity rescaling, a solver that returns
the vector `[7]`. -/
def extOkFix : Externals :=
  { installedSolvers := ["ECOS"],
    preprocess := fun X y _ _ _ =>
      ⟨X, y, List.replicate (ncols X) 0, 0, List.replicate (ncols X) 1⟩,
    rescale := fun X y _ => (X, y),
    solve := fun _ _ _ _ => .ok (some [7]) }

/-- Same collaborators but a solver that raises. -/
def extFailFix : Externals :=
  { extOkFix with solve := fun _ _ _ _ => .error () }

/-- A trivial estimator variant: no auxiliaries, zero objective, no
constraints. -/
def hooksFix : Hooks :=
  ⟨fun _ _ _ _ => none, fun _ _ _ _ _ => .const 0, fun _ _ _ _ _ => none⟩

/-- The cvx constraint declaration used by the concrete estimator: `eta`
constrained to the closed-left interval `[0, ∞)`. -/
def csFix : List (String × List SkConstraint) :=
  [("eta", [.intervalC .realK (some 0) none .leftC])]

/-- The descriptor produced by the first fit of the concrete estimator. -/
def canonFix : Canon :=
  ⟨0, ⟨.minimize, .const 0, none⟩, .const 0, ⟨0, 1⟩,
   [("eta", ⟨.scalar 1, ⟨none, false, false, true, false, false, false⟩⟩)], none, none⟩

/-- The prepared data for `X = [[1],[2]]`, `y = [1,2]` under `extOkFix`. -/
def prepFix : Prepared := ⟨[[1], [2]], [1, 2], [0], 0, [1]⟩

/-- An unfitted estimator with one solver-parameterized hyperparameter
`eta` constrained by `csFix`. -/
def stBase : EstState :=
  { fit_intercept := false, copy_X := true, warm_start := false,
    solver := none, solver_options := none,
    extraParams := [("eta", .scalar 1)],
    cvxConstraints := some csFix,
    canonicals := none, cached_X := none, cached_y := none,
    coef := none, intercept := none, fresh := 0 }

/-- `stBase` after a successful cold fit on `X = [[1],[2]]`, `y = [1,2]`:
descriptor id 0, coefficients `[7]`. -/
def stFitted : EstState :=
  { stBase with
    canonicals := some canonFix,
    coef := some [7], intercept := some 0, fresh := 1 }

/-- `stFitted` with warm start toggled on and the training data cached. -/
def stWarm : EstState :=
  { stFitted with
    warm_start := true,
    cached_X := some [[1], [2]],
    cached_y := some [1, 2] }

/-- `stFitted` with warm start toggled on after the fit, so no cached
training data exists yet. -/
def stWarmNoCache : EstState :=
  { stFitted with warm_start := true }

/-- `stBase` with a `solver_options` value that is neither a dict nor None. -/
def stBadOpts : EstState :=
  { stBase with solver_options := some .notDict }

/-- `stWarm` for an estimator with `_cvx_parameter_constraints = None`. -/
def stWarmNoCvx : EstState :=
  { stWarm with cvxConstraints := none }

/-- Extract the state carried by a raised error. -/
def errState : Except (FitError × EstState) EstState → Option EstState
  | .error (_, s) => some s
  | .ok _ => none

/-- Extract the state of a successful fit. -/
def okState : Except (FitError × EstState) EstState → Option EstState
  | .error _ => none
  | .ok s => some s

/-! Association-list lemmas. -/

theorem alookup_updateAssoc_ne {α : Type} (l : List (String × α)) (n m : String) (v : α)
    (h : m ≠ n) : alookup (updateAssoc l n v) m = alookup l m := by
  induction l with
  | nil => rfl
  | cons kv rest ih =>
    obtain ⟨k, a⟩ := kv
    by_cases hk : k = n
    · rw [updateAssoc, if_pos hk, alookup, alookup,
        if_neg (fun hnm => h hnm.symm), if_neg (fun hkm => (hk ▸ h) hkm.symm)]
      exact ih
    · rw [updateAssoc, if_neg hk, alookup, alookup]
      by_cases hkm : k = m
      · rw [if_pos hkm, if_pos hkm]
      · rw [if_neg hkm, if_neg hkm]
        exact ih

theorem alookup_updateAssoc_self {α : Type} (l : List (String × α)) (n : String) (v : α)
    (h : (alookup l n).isSome) : alookup (updateAssoc l n v) n = some v := by
  induction l with
  | nil => simp [alookup] at h
  | cons kv rest ih =>
    obtain ⟨k, a⟩ := kv
    by_cases hk : k = n
    · rw [updateAssoc, if_pos hk, alookup, if_pos rfl]
    · rw [updateAssoc, if_neg hk, alookup, if_neg hk]
      rw [alookup, if_neg hk] at h
      exact ih h

theorem updateAssoc_absent {α : Type} (l : List (String × α)) (n : String) (v : α)
    (h : alookup l n = none) : updateAssoc l n v = l := by
  induction l with
  | nil => rfl
  | cons kv rest ih =>
    obtain ⟨k, a⟩ := kv
    by_cases hk : k = n
    · rw [alookup, if_pos hk] at h
      cases h
    · rw [alookup, if_neg hk] at h
      rw [updateAssoc, if_neg hk, ih h]

theorem alookup_updateAssoc_isSome {α : Type} (l : List (String × α)) (n m : String) (v : α) :
    (alookup (updateAssoc l n v) m).isSome = (alookup l m).isSome := by
  by_cases hm : m = n
  · subst hm
    rcases h : alookup l m with _ | a
    · rw [updateAssoc_absent l m v h, h]
    · have hs : (alookup l m).isSome := by rw [h]; rfl
      rw [alookup_updateAssoc_self l m v hs]
      rfl
  · rw [alookup_updateAssoc_ne l n m v hm]

theorem alookup_append {α : Type} (l1 l2 : List (String × α)) (n : String) :
    alookup (l1 ++ l2) n = (alookup l1 n).orElse (fun _ => alookup l2 n) := by
  induction l1 with
  | nil => rfl
  | cons kv rest ih =>
    obtain ⟨k, a⟩ := kv
    by_cases hk : k = n
    · simp [alookup, if_pos hk, Option.orElse]
    · simp only [List.cons_append, alookup, if_neg hk]
      exact ih

theorem alookup_setAssoc_self {α : Type} (l : List (String × α)) (n : String) (v : α) :
    alookup (setAssoc l n v) n = some v := by
  unfold setAssoc
  by_cases h : (alookup l n).isSome
  · rw [if_pos h]
    exact alookup_updateAssoc_self l n v h
  · rw [if_neg h, alookup_append]
    rcases he : alookup l n with _ | a
    · simp [alookup, Option.orElse]
    · exact absurd (by rw [he]; rfl) h

theorem alookup_setAssoc_ne {α : Type} (l : List (String × α)) (n m : String) (v : α)
    (h : m ≠ n) : alookup (setAssoc l n v) m = alookup l m := by
  unfold setAssoc
  by_cases hs : (alookup l n).isSome
  · rw [if_pos hs]
    exact alookup_updateAssoc_ne l n m v h
  · rw [if_neg hs, alookup_append]
    rcases he : alookup l m with _ | a
    · have hnm : ¬n = m := fun e => h e.symm
      simp [alookup, hnm, Option.orElse]
    · rfl

/-! Lemmas about the `_set_param_values` loop. -/

theorem setParamList_ok (L : List (String × PValue))
    (cs : List (String × List SkConstraint)) (ps : List (String × CvxParam))
    (h : ∀ n v, (n, v) ∈ L → (alookup cs n).isSome → (alookup ps n).isSome) :
    ∃ ps', setParamList L (some cs) ps = .ok ps' := by
  induction L generalizing ps with
  | nil => exact ⟨ps, rfl⟩
  | cons nv rest ih =>
    obtain ⟨n, v⟩ := nv
    by_cases hc : (alookup cs n).isSome
    · have hps := h n v (List.mem_cons_self _ _) hc
      rcases hh : alookup ps n with _ | h0
      · rw [hh] at hps; exact absurd hps (by simp)
      · have ⟨ps', hps'⟩ := ih (updateAssoc ps n { h0 with value := pushValue h0.value v })
          (fun m w hm hcm => by
            rw [alookup_updateAssoc_isSome]
            exact h m w (List.mem_cons_of_mem _ hm) hcm)
        refine ⟨ps', ?_⟩
        simp only [setParamList, if_pos hc, hh]
        exact hps'
    · have ⟨ps', hps'⟩ := ih ps
        (fun m w hm hcm => h m w (List.mem_cons_of_mem _ hm) hcm)
      refine ⟨ps', ?_⟩
      simp only [setParamList, if_neg hc]
      exact hps'

theorem setParamList_preserve (L : List (String × PValue))
    (cs : List (String × List SkConstraint)) (ps ps' : List (String × CvxParam))
    (n : String) (hn : n ∉ L.map Prod.fst)
    (hrun : setParamList L (some cs) ps = .ok ps') :
    alookup ps' n = alookup ps n := by
  induction L generalizing ps with
  | nil =>
    simp only [setParamList] at hrun
    cases hrun
    rfl
  | cons mw rest ih =>
    obtain ⟨m, w⟩ := mw
    simp only [List.map, List.mem_cons, not_or] at hn
    obtain ⟨hnm, hnrest⟩ := hn
    by_cases hc : (alookup cs m).isSome
    · simp only [setParamList, if_pos hc] at hrun
      rcases hh : alookup ps m with _ | h0
      · rw [hh] at hrun; cases hrun
      · rw [hh] at hrun
        have := ih (updateAssoc ps m { h0 with value := pushValue h0.value w })
          (by simpa using hnrest) hrun
        rw [this, alookup_updateAssoc_ne ps m n _ hnm]
    · simp only [setParamList, if_neg hc] at hrun
      exact ih ps (by simpa using hnrest) hrun

theorem setParamList_at (L : List (String × PValue))
    (cs : List (String × List SkConstraint)) (ps ps' : List (String × CvxParam))
    (n : String) (v : PValue) (h0 : CvxParam)
    (hnd : (L.map Prod.fst).Nodup)
    (hmem : (n, v) ∈ L)
    (hc : (alookup cs n).isSome)
    (hh : alookup ps n = some h0)
    (hrun : setParamList L (some cs) ps = .ok ps') :
    alookup ps' n = some { h0 with value := pushValue h0.value v } := by
  induction L generalizing ps with
  | nil => cases hmem
  | cons mw rest ih =>
    obtain ⟨m, w⟩ := mw
    simp only [List.map, List.nodup_cons] at hnd
    obtain ⟨hmnotin, hndrest⟩ := hnd
    rcases List.mem_cons.mp hmem with heq | hmemrest
    · injection heq with hn1 hv1
      subst hn1; subst hv1
      simp only [setParamList, if_pos hc, hh] at hrun
      have hpres := setParamList_preserve rest cs _ ps' n
        (by simpa using hmnotin) hrun
      rw [hpres, alookup_updateAssoc_self ps n _ (by rw [hh]; rfl)]
    · have hnm : n ≠ m := by
        intro hcontra
        subst hcontra
        exact hmnotin (List.mem_map.mpr ⟨(n, v), hmemrest, rfl⟩)
      by_cases hcm : (alookup cs m).isSome
      · simp only [setParamList, if_pos hcm] at hrun
        rcases hhm : alookup ps m with _ | hm0
        · rw [hhm] at hrun; cases hrun
        · rw [hhm] at hrun
          exact ih _ hndrest hmemrest
            (by rw [alookup_updateAssoc_ne ps m n _ hnm]; exact hh) hrun
      · simp only [setParamList, if_neg hcm] at hrun
        exact ih ps hndrest hmemrest hh hrun

/-! Lemmas about `_generate_params`. -/

theorem alookup_setAssoc_isSome {α : Type} (l : List (String × α)) (n m : String) (v : α) :
    (alookup l m).isSome → (alookup (setAssoc l n v) m).isSome := by
  intro h
  by_cases hm : m = n
  · subst hm
    rw [alookup_setAssoc_self]
    rfl
  · rw [alookup_setAssoc_ne l n m v hm]
    exact h

theorem genParamStep_isSome (cs : List (String × List SkConstraint))
    (acc : List (String × CvxParam)) (nv : String × PValue) (n : String)
    (h : (alookup acc n).isSome) :
    (alookup (genParamStep cs acc nv) n).isSome := by
  unfold genParamStep
  split
  · exact h
  · split
    · exact h
    · exact alookup_setAssoc_isSome _ _ _ _ h

theorem genParamStep_self (cs : List (String × List SkConstraint))
    (acc : List (String × CvxParam)) (n : String) (w : PValue) (cl : List SkConstraint)
    (hcl : alookup cs n = some cl) (hne : cl.isEmpty = false) :
    (alookup (genParamStep cs acc (n, w)) n).isSome := by
  unfold genParamStep
  split
  · rename_i heq
    rw [hcl] at heq
    cases heq
  · rename_i cl' heq
    rw [hcl] at heq
    cases heq
    rw [if_neg (by rw [hne]; exact Bool.false_ne_true)]
    rw [alookup_setAssoc_self]
    rfl

theorem genParamsFold_isSome (cs : List (String × List SkConstraint)) (n : String)
    (L : List (String × PValue)) (acc : List (String × CvxParam))
    (h : (alookup acc n).isSome ∨
      ∃ v cl, (n, v) ∈ L ∧ alookup cs n = some cl ∧ cl.isEmpty = false) :
    (alookup (L.foldl (genParamStep cs) acc) n).isSome := by
  induction L generalizing acc with
  | nil =>
    rcases h with h | ⟨v, cl, hmem, _, _⟩
    · exact h
    · cases hmem
  | cons mw rest ih =>
    obtain ⟨m, w⟩ := mw
    rw [List.foldl_cons]
    rcases h with h | ⟨v, cl, hmem, hcl, hne⟩
    · exact ih _ (Or.inl (genParamStep_isSome cs acc (m, w) n h))
    · rcases List.mem_cons.mp hmem with heq | hmemrest
      · injection heq with hn1 hv1
        subst hn1; subst hv1
        exact ih _ (Or.inl (genParamStep_self cs acc n _ cl hcl hne))
      · exact ih _ (Or.inr ⟨v, cl, hmemrest, hcl, hne⟩)

theorem generate_params_isSome (st : EstState) (X : Mat) (y : Vec)
    (cs : List (String × List SkConstraint)) (n : String) (v : PValue)
    (cl : List SkConstraint)
    (hcs : st.cvxConstraints = some cs)
    (hmem : (n, v) ∈ getParams st)
    (hcl : alookup cs n = some cl) (hne : cl.isEmpty = false) :
    (alookup (generate_params st X y) n).isSome := by
  unfold generate_params
  rw [hcs]
  exact genParamsFold_isSome cs n (getParams st) [] (Or.inr ⟨v, cl, hmem, hcl, hne⟩)

/-! State-preservation lemmas for the stages of `fit`. -/

theorem generate_problem_coef (hooks : Hooks) (st : EstState) (X : Mat) (y : Vec) :
    (generate_problem hooks st X y).coef = st.coef := rfl

theorem generate_problem_intercept (hooks : Hooks) (st : EstState) (X : Mat) (y : Vec) :
    (generate_problem hooks st X y).intercept = st.intercept := rfl

theorem buildDecision_coef (hooks : Hooks) (st : EstState) (X : Mat) (y : Vec) :
    (buildDecision hooks st X y).coef = st.coef := by
  unfold buildDecision
  split <;> rfl

theorem buildDecision_intercept (hooks : Hooks) (st : EstState) (X : Mat) (y : Vec) :
    (buildDecision hooks st X y).intercept = st.intercept := by
  unfold buildDecision
  split <;> rfl

theorem set_param_values_shape (st : EstState) (s : EstState)
    (h : set_param_values st = .ok s) :
    ∃ c ps, st.canonicals = some c ∧
      setParamList (getParams st) st.cvxConstraints c.parameters = .ok ps ∧
      s = { st with canonicals := some { c with parameters := ps } } := by
  unfold set_param_values at h
  split at h
  · cases h
  · rename_i c hc
    split at h
    · cases h
    · rename_i ps hrun
      cases h
      exact ⟨c, ps, hc, hrun, rfl⟩

theorem warmStage_ok_state (hooks : Hooks) (st1 : EstState) (X2 : Mat) (y2 : Vec)
    (s : EstState) (h : warmStage hooks st1 X2 y2 = .ok s) :
    s.coef = st1.coef ∧ s.intercept = st1.intercept := by
  unfold warmStage at h
  by_cases hw : st1.warm_start
  · rw [if_pos hw] at h
    dsimp only at h
    split at h
    · cases h
      exact ⟨rfl, rfl⟩
    · split at h
      · cases h
      · rename_i st3 hs
        cases h
        obtain ⟨c, ps, _, _, hsh⟩ := set_param_values_shape _ _ hs
        subst hsh
        exact ⟨rfl, rfl⟩
  · rw [if_neg hw] at h
    cases h
    exact ⟨rfl, rfl⟩

theorem warmStage_error_state (hooks : Hooks) (st1 : EstState) (X2 : Mat) (y2 : Vec)
    (e : FitError) (s : EstState) (h : warmStage hooks st1 X2 y2 = .error (e, s)) :
    s.coef = st1.coef ∧ s.intercept = st1.intercept := by
  unfold warmStage at h
  by_cases hw : st1.warm_start
  · rw [if_pos hw] at h
    dsimp only at h
    split at h
    · cases h
    · split at h
      · cases h
        exact ⟨rfl, rfl⟩
      · cases h
  · rw [if_neg hw] at h
    cases h

theorem solveStage_error_state (ext : Externals) (st3 : EstState) (p : Prepared)
    (e : FitError) (s : EstState)
    (hns : ∀ pr so w o, ext.solve pr so w o ≠ .ok none)
    (h : solveStage ext st3 p = .error (e, s)) :
    s.coef = st3.coef ∧ s.intercept = st3.intercept := by
  unfold solveStage at h
  split at h
  · cases h
    exact ⟨rfl, rfl⟩
  · split at h
    · cases h
      exact ⟨rfl, rfl⟩
    · split at h
      · cases h
        exact ⟨rfl, rfl⟩
      · rename_i v hsv
        rcases v with _ | cv
        · exact absurd hsv (hns _ _ _ _)
        · dsimp only at h
          split at h
          · cases h
          · cases h

/-! Evaluation lemmas for the stages of `fit`, used to trace concrete runs. -/

theorem buildDecision_skip (hooks : Hooks) (st : EstState) (X : Mat) (y : Vec)
    (hc : st.canonicals.isSome) (hws : st.warm_start = true) :
    buildDecision hooks st X y = st := by
  unfold buildDecision
  rcases hcc : st.canonicals with _ | c
  · rw [hcc] at hc
    cases hc
  · rw [hws]
    rfl

theorem buildDecision_go (hooks : Hooks) (st : EstState) (X : Mat) (y : Vec)
    (h : (st.canonicals.isNone || !st.warm_start) = true) :
    buildDecision hooks st X y = generate_problem hooks st X y := by
  unfold buildDecision
  rw [if_pos h]

theorem warmStage_skip (hooks : Hooks) (st1 : EstState) (X2 : Mat) (y2 : Vec)
    (hws : st1.warm_start = false) :
    warmStage hooks st1 X2 y2 = .ok st1 := by
  unfold warmStage
  rw [hws]
  rfl

theorem set_param_values_eq (st : EstState) (c : Canon)
    (cs : List (String × List SkConstraint)) (ps : List (String × CvxParam))
    (hc : st.canonicals = some c)
    (hcs : st.cvxConstraints = some cs)
    (hrun : setParamList (getParams st) (some cs) c.parameters = .ok ps) :
    set_param_values st = .ok { st with canonicals := some { c with parameters := ps } } := by
  unfold set_param_values
  rw [hc]
  dsimp only
  rw [hcs, hrun]

theorem set_param_values_none_err (st : EstState) (c : Canon)
    (hc : st.canonicals = some c)
    (hcs : st.cvxConstraints = none) :
    set_param_values st = .error .noneIterTypeError := by
  unfold set_param_values
  rw [hc]
  dsimp only
  rw [hcs]
  rfl

theorem warmStage_push_eq (hooks : Hooks) (st1 : EstState) (X2 : Mat) (y2 : Vec)
    (s : EstState)
    (hws : st1.warm_start = true)
    (hcx : st1.cached_X = some X2) (hcy : st1.cached_y = some y2)
    (hspv : set_param_values
      ({ st1 with cached_X := some X2, cached_y := some y2 } : EstState) = .ok s) :
    warmStage hooks st1 X2 y2 = .ok s := by
  unfold warmStage
  rw [if_pos hws]
  dsimp only
  rw [hcx, hcy]
  dsimp only [Option.getD]
  rw [if_neg (by simp)]
  rw [hspv]

theorem warmStage_push_err (hooks : Hooks) (st1 : EstState) (X2 : Mat) (y2 : Vec)
    (e : FitError)
    (hws : st1.warm_start = true)
    (hcx : st1.cached_X = some X2) (hcy : st1.cached_y = some y2)
    (hspv : set_param_values
      ({ st1 with cached_X := some X2, cached_y := some y2 } : EstState) = .error e) :
    warmStage hooks st1 X2 y2
      = .error (e, { st1 with cached_X := some X2, cached_y := some y2 }) := by
  unfold warmStage
  rw [if_pos hws]
  dsimp only
  rw [hcx, hcy]
  dsimp only [Option.getD]
  rw [if_neg (by simp)]
  rw [hspv]

theorem warmStage_cacheThenPush_eq (hooks : Hooks) (st1 : EstState) (X2 : Mat) (y2 : Vec)
    (s : EstState)
    (hws : st1.warm_start = true)
    (hcx : st1.cached_X = none) (hcy : st1.cached_y = none)
    (hspv : set_param_values
      ({ st1 with cached_X := some X2, cached_y := some y2 } : EstState) = .ok s) :
    warmStage hooks st1 X2 y2 = .ok s := by
  unfold warmStage
  rw [if_pos hws]
  dsimp only
  rw [hcx, hcy]
  dsimp only [Option.getD]
  rw [if_neg (by simp)]
  rw [hspv]

theorem warmStage_rebuild_eq (hooks : Hooks) (st1 : EstState) (X2 : Mat) (y2 : Vec)
    (A : Mat) (B : Vec)
    (hws : st1.warm_start = true)
    (hcx : st1.cached_X = some A) (hcy : st1.cached_y = some B)
    (hne : A ≠ X2 ∨ B ≠ y2) :
    warmStage hooks st1 X2 y2
      = .ok (generate_problem hooks
          ({ st1 with cached_X := some A, cached_y := some B } : EstState) X2 y2) := by
  unfold warmStage
  rw [if_pos hws]
  dsimp only
  rw [hcx, hcy]
  dsimp only [Option.getD]
  rw [if_pos (show some A ≠ some X2 ∨ some B ≠ some y2 by
    rcases hne with h | h
    · exact Or.inl (by simpa using h)
    · exact Or.inr (by simpa using h))]

theorem solveStage_eq_no_intercept (ext : Externals) (st3 : EstState) (p : Prepared)
    (c : Canon) (rv : Option Vec)
    (hso : st3.solver_options = none)
    (hc : st3.canonicals = some c)
    (hsv : ext.solve c.problem st3.solver st3.warm_start [] = .ok rv)
    (hfi : st3.fit_intercept = false) :
    solveStage ext st3 p = .ok { st3 with coef := rv, intercept := some 0 } := by
  unfold solveStage
  rw [hso]
  dsimp only [checkSolverOptions]
  rw [hc]
  dsimp only
  rw [hsv]
  dsimp only
  rw [if_neg (by rw [hfi]; exact Bool.false_ne_true)]

theorem solveStage_after_build (ext : Externals) (hooks : Hooks) (stb : EstState)
    (X2 : Mat) (y2 : Vec) (p : Prepared) (rv : Option Vec)
    (hso : stb.solver_options = none)
    (hsolve : ∀ pr, ext.solve pr stb.solver stb.warm_start [] = .ok rv)
    (hfi : stb.fit_intercept = false) :
    solveStage ext (generate_problem hooks stb X2 y2) p
      = .ok { generate_problem hooks stb X2 y2 with coef := rv, intercept := some 0 } := by
  apply solveStage_eq_no_intercept ext _ p _ rv
  · exact hso
  · rfl
  · exact hsolve _
  · exact hfi

/-! Claim theorems. -/

/-- C5: for every fit using the Tikhonov mixin on an `X` with `n_samples`
rows and `n_features` columns, the assembled objective equals the objective
produced by the next implementation in the composition chain plus the term
`2 * n_samples * eta * sum_of_squares(W @ decisionVariable)`, where `W` is
the user-supplied `tikhonov_w` if set and not None, and the `n_features`
identity matrix otherwise (stated semantically: the two sides evaluate
equal under every assignment to the decision variables and parameters). -/
theorem tikhonov_objective_adds_penalty
    (superObjective : Mat → Vec → VarT → List (String × CvxParam) → Option AuxNS → Expr)
    (tikhonov_w : Option (Option Mat)) (X : Mat) (y : Vec) (beta : VarT)
    (parameters : List (String × CvxParam)) (auxiliaries : Option AuxNS)
    (venv : Nat → Vec) (penv : String → ℚ) :
    Expr.eval venv penv
      (tikhonov_generate_objective superObjective tikhonov_w X y beta parameters auxiliaries)
    = Expr.eval venv penv (superObjective X y beta parameters auxiliaries)
      + 2 * (X.length : ℚ) * penv "eta"
        * sumSq (matVec (specTikhonovW tikhonov_w (ncols X)) (venv beta.vid)) := by
  rcases tikhonov_w with _ | tw
  · simp only [tikhonov_generate_objective, specTikhonovW, Expr.eval]
  · rcases tw with _ | w
    · simp only [tikhonov_generate_objective, specTikhonovW, Expr.eval]
    · simp only [tikhonov_generate_objective, specTikhonovW, Expr.eval]

/-- C4: for a solver-parameterized hyperparameter whose declared constraint
is a numeric interval, the kwargs inferred by `_generate_params` are: a
lower bound of zero yields `nonneg` if inclusive and `pos` if exclusive; a
strictly positive lower bound yields `pos`; an upper bound of zero yields
`nonpos` if inclusive and `neg` if exclusive; a strictly negative upper
bound yields `neg`; an `Integral`-typed interval additionally yields
`integer`. -/
theorem interval_hint_inference (v : PValue) (ty : NumKind) (l r : Option ℚ)
    (closed : ClosedKind) :
    (ty = .integralK →
      (foldKwargs v [.intervalC ty l r closed]).integer = true) ∧
    (l = some 0 → closedLeft closed = true →
      (foldKwargs v [.intervalC ty l r closed]).nonneg = true) ∧
    (l = some 0 → closedLeft closed = false →
      (foldKwargs v [.intervalC ty l r closed]).pos = true) ∧
    (∀ q : ℚ, l = some q → 0 < q →
      (foldKwargs v [.intervalC ty l r closed]).pos = true) ∧
    (r = some 0 → closedRight closed = true →
      (foldKwargs v [.intervalC ty l r closed]).nonpos = true) ∧
    (r = some 0 → closedRight closed = false →
      (foldKwargs v [.intervalC ty l r closed]).neg = true) ∧
    (∀ q : ℚ, r = some q → q < 0 →
      (foldKwargs v [.intervalC ty l r closed]).neg = true) := by
  refine ⟨?_, ?_, ?_, ?_, ?_, ?_, ?_⟩
  · intro hty
    subst hty
    rcases l with _ | lv <;> rcases r with _ | rv <;>
      simp only [foldKwargs, List.foldl, applyConstraint] <;>
      split_ifs <;> first | rfl | contradiction
  · intro hl hcl
    subst hl
    rcases ty <;> rcases r with _ | rv <;>
      simp only [foldKwargs, List.foldl, applyConstraint] <;>
      simp only [hcl] <;> split_ifs <;> first | rfl | contradiction
  · intro hl hcl
    subst hl
    rcases ty <;> rcases r with _ | rv <;>
      simp only [foldKwargs, List.foldl, applyConstraint] <;>
      simp only [hcl] <;> split_ifs <;> first | rfl | contradiction
  · intro q hl hq
    subst hl
    have hne : ¬q = 0 := ne_of_gt hq
    rcases ty <;> rcases r with _ | rv <;>
      simp only [foldKwargs, List.foldl, applyConstraint] <;>
      simp only [hne, hq, if_true, if_false, if_neg hne, if_pos hq] <;>
      split_ifs <;> first | rfl | contradiction
  · intro hr hcr
    subst hr
    rcases ty <;> rcases l with _ | lv <;>
      simp only [foldKwargs, List.foldl, applyConstraint] <;>
      simp only [hcr] <;> split_ifs <;> first | rfl | contradiction
  · intro hr hcr
    subst hr
    rcases ty <;> rcases l with _ | lv <;>
      simp only [foldKwargs, List.foldl, applyConstraint] <;>
      simp only [hcr] <;> split_ifs <;> first | rfl | contradiction
  · intro q hr hq
    subst hr
    have hne : ¬q = 0 := ne_of_lt hq
    rcases ty <;> rcases l with _ | lv <;>
      simp only [foldKwargs, List.foldl, applyConstraint] <;>
      simp only [hne, hq, if_neg hne, if_pos hq] <;>
      split_ifs <;> first | rfl | contradiction

/-- C4 witness: concrete intervals exercising the `integer`, `nonneg`, and
`pos` branches through the theorem. -/
theorem interval_hint_inference_witness :
    (foldKwargs (.scalar 1) [.intervalC .integralK (some 0) none .leftC]).integer = true ∧
    (foldKwargs (.scalar 1) [.intervalC .integralK (some 0) none .leftC]).nonneg = true ∧
    (foldKwargs (.scalar 1) [.intervalC .realK (some 0) none .neitherC]).pos = true ∧
    (foldKwargs (.scalar 1) [.intervalC .realK none (some 0) .rightC]).nonpos = true ∧
    (foldKwargs (.scalar 1) [.intervalC .realK none (some (-1)) .bothC]).neg = true :=
  ⟨(interval_hint_inference (.scalar 1) .integralK (some 0) none .leftC).1 rfl,
   (interval_hint_inference (.scalar 1) .integralK (some 0) none .leftC).2.1 rfl rfl,
   (interval_hint_inference (.scalar 1) .realK (some 0) none .neitherC).2.2.1 rfl rfl,
   (interval_hint_inference (.scalar 1) .realK none (some 0) .rightC).2.2.2.2.1 rfl rfl,
   (interval_hint_inference (.scalar 1) .realK none (some (-1)) .bothC).2.2.2.2.2.2
     (-1) rfl (by norm_num)⟩

/-- C6: `generate_problem` stores a brand-new problem descriptor whose
decision variable is fresh and of length `X.shape[1]`, whose parameters come
from the parameter translator, whose auxiliaries/objective/constraints come
from the builder hooks invoked in that order (each later hook consuming the
earlier outputs), and whose problem wraps the objective as a minimization
combined with the constraints. -/
theorem generate_problem_structure (hooks : Hooks) (st : EstState) (X : Mat) (y : Vec)
    (hwf : ∀ c0, st.canonicals = some c0 → c0.cid < st.fresh) :
    ∃ c, (generate_problem hooks st X y).canonicals = some c ∧
      c.beta = ⟨st.fresh, ncols X⟩ ∧
      c.parameters = generate_params st X y ∧
      c.auxiliaries = hooks.genAux X y c.beta c.parameters ∧
      c.objective = hooks.genObjective X y c.beta c.parameters c.auxiliaries ∧
      c.constraints = hooks.genConstraints X y c.beta c.parameters c.auxiliaries ∧
      c.problem = ⟨.minimize, c.objective, c.constraints⟩ ∧
      (∀ c0, st.canonicals = some c0 → c ≠ c0) := by
  refine ⟨_, rfl, rfl, rfl, rfl, rfl, rfl, rfl, ?_⟩
  intro c0 hc0 hcontra
  have hlt := hwf c0 hc0
  rw [← hcontra] at hlt
  exact lt_irrefl st.fresh hlt

/-- C6 witness: instantiated on a previously fitted estimator, whose
existing descriptor (id 0) differs from the newly built one. -/
theorem generate_problem_structure_witness :
    ∃ c, (generate_problem hooksFix stFitted [[1], [2]] [1, 2]).canonicals = some c ∧
      c.beta = ⟨stFitted.fresh, ncols [[1], [2]]⟩ ∧
      c.parameters = generate_params stFitted [[1], [2]] [1, 2] ∧
      c.auxiliaries = hooksFix.genAux [[1], [2]] [1, 2] c.beta c.parameters ∧
      c.objective = hooksFix.genObjective [[1], [2]] [1, 2] c.beta c.parameters c.auxiliaries ∧
      c.constraints = hooksFix.genConstraints [[1], [2]] [1, 2] c.beta c.parameters c.auxiliaries ∧
      c.problem = ⟨.minimize, c.objective, c.constraints⟩ ∧
      (∀ c0, stFitted.canonicals = some c0 → c ≠ c0) :=
  generate_problem_structure hooksFix stFitted [[1], [2]] [1, 2]
    (by intro c0 hc0; injection hc0 with h; rw [← h]; decide)

/-- C1: with warm start enabled, an existing descriptor, and cached training
data equal to the newly prepared data, `fit` succeeds without rebuilding the
descriptor — the resulting `canonicals_` is the same object (same id,
problem, objective, variable, auxiliaries and constraints), only the values
inside the existing parameter handles changed — and the current value of
every solver-parameterized hyperparameter was written into its handle. -/
theorem warm_start_unchanged_data_pushes_params
    (ext : Externals) (hooks : Hooks) (st : EstState) (X : Mat) (y : Vec) (sw : Option Vec)
    (p : Prepared) (c : Canon) (cs : List (String × List SkConstraint)) (rv : Option Vec)
    (hp : prepare ext st X y sw = .ok p)
    (hv : validateFirstFail ext.installedSolvers st = none)
    (hws : st.warm_start = true)
    (hc : st.canonicals = some c)
    (hcx : st.cached_X = some p.X2)
    (hcy : st.cached_y = some p.y2)
    (hcs : st.cvxConstraints = some cs)
    (hnd : ((getParams st).map Prod.fst).Nodup)
    (hhandles : ∀ n v, (n, v) ∈ getParams st → (alookup cs n).isSome →
      (alookup c.parameters n).isSome)
    (hso : st.solver_options = none)
    (hfi : st.fit_intercept = false)
    (hsolve : ext.solve c.problem st.solver st.warm_start [] = .ok rv) :
    ∃ st' ps,
      fit ext hooks st X y sw = .ok st' ∧
      st'.canonicals = some { c with parameters := ps } ∧
      (∀ n v h0, (n, v) ∈ getParams st → (alookup cs n).isSome →
        alookup c.parameters n = some h0 →
        alookup ps n = some { h0 with value := pushValue h0.value v }) := by
  obtain ⟨ps, hrun⟩ := setParamList_ok (getParams st) cs c.parameters hhandles
  have hbd : buildDecision hooks st p.X2 p.y2 = st :=
    buildDecision_skip hooks st p.X2 p.y2 (by rw [hc]; rfl) hws
  have hspv := set_param_values_eq
    ({ st with cached_X := some p.X2, cached_y := some p.y2 } : EstState)
    c cs ps hc hcs hrun
  have hwarm := warmStage_push_eq hooks st p.X2 p.y2 _ hws hcx hcy hspv
  have hsolve2 := solveStage_eq_no_intercept ext
    ({ st with
        cached_X := some p.X2, cached_y := some p.y2,
        canonicals := some { c with parameters := ps } } : EstState)
    p { c with parameters := ps } rv hso rfl hsolve hfi
  refine ⟨{ st with
      cached_X := some p.X2,
      cached_y := some p.y2,
      canonicals := some { c with parameters := ps },
      coef := rv,
      intercept := some 0 }, ps, ?_, rfl, ?_⟩
  · unfold fit
    rw [hp]
    unfold fitCore
    rw [hv]
    dsimp only
    rw [hbd, hwarm]
    exact hsolve2
  · intro n v h0 hmem hcsome hh0
    exact setParamList_at (getParams st) cs c.parameters ps n v h0 hnd hmem hcsome hh0 hrun

/-- C1 witness: a concrete warm-started estimator refit on the cached data
with `eta = 1`; the descriptor is reused and the `eta` handle receives the
current value. -/
theorem warm_start_unchanged_data_pushes_params_witness :
    ∃ st' ps,
      fit extOkFix hooksFix stWarm [[1], [2]] [1, 2] none = .ok st' ∧
      st'.canonicals = some { canonFix with parameters := ps } ∧
      (∀ n v h0, (n, v) ∈ getParams stWarm → (alookup csFix n).isSome →
        alookup canonFix.parameters n = some h0 →
        alookup ps n = some { h0 with value := pushValue h0.value v }) :=
  warm_start_unchanged_data_pushes_params extOkFix hooksFix stWarm [[1], [2]] [1, 2] none
    prepFix canonFix csFix (some [7]) rfl rfl rfl rfl rfl rfl rfl (by decide)
    (by
      intro n v _ hcs
      by_cases hn : n = "eta"
      · subst hn
        rfl
      · exfalso
        have hne : ¬("eta" = n) := fun e => hn e.symm
        simp only [csFix, alookup, if_neg hne] at hcs
        cases hcs)
    rfl rfl rfl

/-- C2 counterexample: with warm start on and cached data `[[1],[2]]/[1,2]`,
fitting on changed data `[[5],[6]]` rebuilds the descriptor (new id 1) but
leaves the cache holding the OLD arrays — the cache is not refreshed to the
new data, contradicting the claim. -/
theorem warm_start_changed_data_cache_cx :
    (okState (fit extOkFix hooksFix stWarm [[5], [6]] [1, 2] none)).map
        (fun s => s.cached_X) = some (some [[1], [2]]) ∧
    (okState (fit extOkFix hooksFix stWarm [[5], [6]] [1, 2] none)).map
        (fun s => s.cached_X) ≠ some (some [[5], [6]]) ∧
    (okState (fit extOkFix hooksFix stWarm [[5], [6]] [1, 2] none)).map
        (fun s => s.canonicals.map Canon.cid) = some (some 1) := by
  decide

/-- C2 (amended): with warm start enabled and cached data present but
different from the prepared data, `fit` rebuilds the problem descriptor (a
brand-new descriptor carrying the fresh id replaces the previous one), but
the cached training data is NOT refreshed: after `fit` returns it still
holds the previously cached arrays (the cache is only ever assigned when
the attribute does not exist). -/
theorem warm_start_changed_data_rebuilds_cache_stale
    (ext : Externals) (hooks : Hooks) (st : EstState) (X : Mat) (y : Vec) (sw : Option Vec)
    (p : Prepared) (c : Canon) (A : Mat) (B : Vec) (rv : Option Vec)
    (hp : prepare ext st X y sw = .ok p)
    (hv : validateFirstFail ext.installedSolvers st = none)
    (hws : st.warm_start = true)
    (hc : st.canonicals = some c)
    (hwf : c.cid < st.fresh)
    (hcx : st.cached_X = some A)
    (hcy : st.cached_y = some B)
    (hne : A ≠ p.X2 ∨ B ≠ p.y2)
    (hso : st.solver_options = none)
    (hfi : st.fit_intercept = false)
    (hsolve : ∀ pr, ext.solve pr st.solver st.warm_start [] = .ok rv) :
    ∃ st', fit ext hooks st X y sw = .ok st' ∧
      st'.cached_X = some A ∧
      st'.cached_y = some B ∧
      st'.canonicals.map Canon.cid = some st.fresh ∧
      st'.canonicals ≠ some c := by
  have hbd : buildDecision hooks st p.X2 p.y2 = st :=
    buildDecision_skip hooks st p.X2 p.y2 (by rw [hc]; rfl) hws
  have hwarm := warmStage_rebuild_eq hooks st p.X2 p.y2 A B hws hcx hcy hne
  have hsolve2 := solveStage_after_build ext hooks
    ({ st with cached_X := some A, cached_y := some B } : EstState)
    p.X2 p.y2 p rv hso hsolve hfi
  refine ⟨{ generate_problem hooks
      ({ st with cached_X := some A, cached_y := some B } : EstState) p.X2 p.y2 with
      coef := rv, intercept := some 0 }, ?_, rfl, rfl, rfl, ?_⟩
  · unfold fit
    rw [hp]
    unfold fitCore
    rw [hv]
    dsimp only
    rw [hbd, hwarm]
    exact hsolve2
  · intro hcontra
    have hcid : (some c).map Canon.cid = some st.fresh := by
      rw [← hcontra]
      rfl
    simp only [Option.map] at hcid
    have h2 : c.cid = st.fresh := Option.some.inj hcid
    rw [h2] at hwf
    exact lt_irrefl _ hwf

/-- C2 witness for the amended claim: the concrete warm estimator refit on
changed data; the descriptor id advances from 0 to 1 while the cache keeps
the original arrays. -/
theorem warm_start_changed_data_rebuilds_cache_stale_witness :
    ∃ st', fit extOkFix hooksFix stWarm [[5], [6]] [1, 2] none = .ok st' ∧
      st'.cached_X = some [[1], [2]] ∧
      st'.cached_y = some [1, 2] ∧
      st'.canonicals.map Canon.cid = some stWarm.fresh ∧
      st'.canonicals ≠ some canonFix :=
  warm_start_changed_data_rebuilds_cache_stale extOkFix hooksFix stWarm
    [[5], [6]] [1, 2] none ⟨[[5], [6]], [1, 2], [0], 0, [1]⟩ canonFix
    [[1], [2]] [1, 2] (some [7]) rfl (by decide) rfl rfl (by decide) rfl rfl
    (Or.inl (by decide)) rfl rfl (fun _ => rfl)

/-- C3 counterexample: warm start was toggled on after a prior fit, so a
descriptor exists (id 0) but no cached data.  Fitting on NEW data
`[[5],[6]]` does NOT rebuild: the descriptor after the fit is the identical
old object (built from the old data), while the new data is cached —
contradicting the claim that `fit` rebuilds in this situation. -/
theorem warm_start_no_cache_existing_descriptor_cx :
    (okState (fit extOkFix hooksFix stWarmNoCache [[5], [6]] [1, 2] none)).map
        (fun s => s.canonicals) = some (some canonFix) ∧
    (okState (fit extOkFix hooksFix stWarmNoCache [[5], [6]] [1, 2] none)).map
        (fun s => s.cached_X) = some (some [[5], [6]]) ∧
    stWarmNoCache.canonicals = some canonFix := by
  decide

/-- C3 (amended): with warm start enabled and no cached training data yet,
`fit` caches the preprocessed training data; it builds the problem
descriptor only when none exists (the new descriptor carries the fresh id).
When a descriptor already exists (e.g. warm start was toggled on after a
prior fit or `generate_problem` was called directly), `fit` does NOT
rebuild: the existing descriptor is kept (same id) and the current
hyperparameter values are pushed into its parameter handles. -/
theorem warm_start_no_cache_builds_only_if_missing
    (ext : Externals) (hooks : Hooks) (st : EstState) (X : Mat) (y : Vec) (sw : Option Vec)
    (p : Prepared) (cs : List (String × List SkConstraint)) (rv : Option Vec)
    (hp : prepare ext st X y sw = .ok p)
    (hv : validateFirstFail ext.installedSolvers st = none)
    (hws : st.warm_start = true)
    (hcx : st.cached_X = none)
    (hcy : st.cached_y = none)
    (hcs : st.cvxConstraints = some cs)
    (hclne : ∀ n cl, alookup cs n = some cl → cl.isEmpty = false)
    (hhb : ∀ c0, st.canonicals = some c0 → ∀ n v, (n, v) ∈ getParams st →
      (alookup cs n).isSome → (alookup c0.parameters n).isSome)
    (hnd : ((getParams st).map Prod.fst).Nodup)
    (hso : st.solver_options = none)
    (hfi : st.fit_intercept = false)
    (hsolve : ∀ pr, ext.solve pr st.solver st.warm_start [] = .ok rv) :
    ∃ st', fit ext hooks st X y sw = .ok st' ∧
      st'.cached_X = some p.X2 ∧
      st'.cached_y = some p.y2 ∧
      (st.canonicals = none → st'.canonicals.map Canon.cid = some st.fresh) ∧
      (∀ c0, st.canonicals = some c0 →
        ∃ ps, st'.canonicals = some { c0 with parameters := ps } ∧
          ∀ n v hOld, (n, v) ∈ getParams st → (alookup cs n).isSome →
            alookup c0.parameters n = some hOld →
            alookup ps n = some { hOld with value := pushValue hOld.value v }) := by
  rcases hcanon : st.canonicals with _ | c
  · -- no descriptor yet: line 171 builds, then the data is cached and the
    -- freshly created handles receive the current values
    have hbd : buildDecision hooks st p.X2 p.y2 = generate_problem hooks st p.X2 p.y2 :=
      buildDecision_go hooks st p.X2 p.y2 (by rw [hcanon]; rfl)
    have hhandles : ∀ n v, (n, v) ∈ getParams st → (alookup cs n).isSome →
        (alookup (builtCanon hooks st p.X2 p.y2).parameters n).isSome := by
      intro n v hmem hcsome
      rcases Option.isSome_iff_exists.mp hcsome with ⟨cl, hcl⟩
      exact generate_params_isSome st p.X2 p.y2 cs n v cl hcs hmem hcl (hclne n cl hcl)
    obtain ⟨ps, hrun⟩ :=
      setParamList_ok (getParams st) cs (builtCanon hooks st p.X2 p.y2).parameters hhandles
    have hspv := set_param_values_eq
      ({ generate_problem hooks st p.X2 p.y2 with
          cached_X := some p.X2, cached_y := some p.y2 } : EstState)
      (builtCanon hooks st p.X2 p.y2) cs ps rfl hcs hrun
    have hwarm := warmStage_cacheThenPush_eq hooks
      (generate_problem hooks st p.X2 p.y2) p.X2 p.y2 _ hws hcx hcy hspv
    have hsolve2 := solveStage_eq_no_intercept ext
      ({ generate_problem hooks st p.X2 p.y2 with
          cached_X := some p.X2, cached_y := some p.y2,
          canonicals := some { builtCanon hooks st p.X2 p.y2 with parameters := ps } }
        : EstState)
      p { builtCanon hooks st p.X2 p.y2 with parameters := ps } rv hso rfl (hsolve _) hfi
    refine ⟨{ generate_problem hooks st p.X2 p.y2 with
        cached_X := some p.X2,
        cached_y := some p.y2,
        canonicals := some { builtCanon hooks st p.X2 p.y2 with parameters := ps },
        coef := rv,
        intercept := some 0 }, ?_, rfl, rfl, fun _ => rfl, ?_⟩
    · unfold fit
      rw [hp]
      unfold fitCore
      rw [hv]
      dsimp only
      rw [hbd, hwarm]
      exact hsolve2
    · intro c0 h0
      cases h0
  · -- a descriptor already exists: no rebuild, cache and push
    have hbd : buildDecision hooks st p.X2 p.y2 = st :=
      buildDecision_skip hooks st p.X2 p.y2 (by rw [hcanon]; rfl) hws
    obtain ⟨ps, hrun⟩ :=
      setParamList_ok (getParams st) cs c.parameters (hhb c hcanon)
    have hspv := set_param_values_eq
      ({ st with cached_X := some p.X2, cached_y := some p.y2 } : EstState)
      c cs ps hcanon hcs hrun
    have hwarm := warmStage_cacheThenPush_eq hooks st p.X2 p.y2 _ hws hcx hcy hspv
    have hsolve2 := solveStage_eq_no_intercept ext
      ({ st with
          cached_X := some p.X2,
          cached_y := some p.y2,
          canonicals := some { c with parameters := ps } } : EstState)
      p { c with parameters := ps } rv hso rfl (hsolve _) hfi
    refine ⟨{ st with
        cached_X := some p.X2,
        cached_y := some p.y2,
        canonicals := some { c with parameters := ps },
        coef := rv,
        intercept := some 0 }, ?_, rfl, rfl, ?_, ?_⟩
    · unfold fit
      rw [hp]
      unfold fitCore
      rw [hv]
      dsimp only
      rw [hbd, hwarm]
      exact hsolve2
    · intro h0
      cases h0
    · intro c0 h0
      have hcc : c = c0 := Option.some.inj h0
      subst hcc
      refine ⟨ps, rfl, ?_⟩
      intro n v hOld hmem hcsome hh0
      exact setParamList_at (getParams st) cs c.parameters ps n v hOld hnd hmem hcsome hh0 hrun

/-- C3 witness for the amended claim, in the existing-descriptor case: warm
start toggled on after a prior fit, new data; the data is cached, the
existing descriptor is kept (only parameter-handle values change), and the
`eta` handle receives the current hyperparameter value. -/
theorem warm_start_no_cache_builds_only_if_missing_witness :
    ∃ st', fit extOkFix hooksFix stWarmNoCache [[5], [6]] [1, 2] none = .ok st' ∧
      st'.cached_X = some [[5], [6]] ∧
      st'.cached_y = some [1, 2] ∧
      (stWarmNoCache.canonicals = none →
        st'.canonicals.map Canon.cid = some stWarmNoCache.fresh) ∧
      (∀ c0, stWarmNoCache.canonicals = some c0 →
        ∃ ps, st'.canonicals = some { c0 with parameters := ps } ∧
          ∀ n v hOld, (n, v) ∈ getParams stWarmNoCache → (alookup csFix n).isSome →
            alookup c0.parameters n = some hOld →
            alookup ps n = some { hOld with value := pushValue hOld.value v }) :=
  warm_start_no_cache_builds_only_if_missing extOkFix hooksFix stWarmNoCache
    [[5], [6]] [1, 2] none ⟨[[5], [6]], [1, 2], [0], 0, [1]⟩ csFix (some [7])
    rfl (by decide) rfl rfl rfl rfl
    (by
      intro n cl hcl
      by_cases hn : n = "eta"
      · subst hn
        rw [show alookup csFix "eta" = some [SkConstraint.intervalC .realK (some 0) none .leftC]
          from rfl] at hcl
        cases hcl
        rfl
      · have hne : ¬("eta" = n) := fun e => hn e.symm
        simp only [csFix, alookup, if_neg hne] at hcl
        cases hcl)
    (by
      intro c0 h0 n v _ hcsome
      cases h0
      by_cases hn : n = "eta"
      · subst hn
        rfl
      · exfalso
        have hne : ¬("eta" = n) := fun e => hn e.symm
        simp only [csFix, alookup, if_neg hne] at hcsome
        cases hcsome)
    (by decide)
    rfl rfl (fun _ => rfl)

/-- C7 counterexample: a previously fitted estimator (descriptor id 0,
coefficients set) refit with a failing solver: `fit` raises, yet the
already-fitted `canonicals_` has been replaced (id 1) before the raise —
previously-fitted state is NOT left unchanged. -/
theorem fit_error_mutates_canonicals_cx :
    (errState (fit extFailFix hooksFix stFitted [[5], [6]] [1, 2] none)).map
        (fun s => s.canonicals.map Canon.cid) = some (some 1) ∧
    stFitted.canonicals.map Canon.cid = some 0 ∧
    (okState (fit extFailFix hooksFix stFitted [[5], [6]] [1, 2] none)) = none := by
  decide

/-- C7 (amended): assuming the solver either raises or produces a
coefficient vector, every raising run of `fit` leaves the previously-fitted
`coefficients` and `intercept` unchanged; however `canonicals_` and the
warm-start cache may already have been rebuilt or refreshed before the
raise (problem generation and caching precede the solve). -/
theorem fit_error_preserves_coef_intercept
    (ext : Externals) (hooks : Hooks) (st : EstState) (X : Mat) (y : Vec) (sw : Option Vec)
    (e : FitError) (s : EstState)
    (hns : ∀ pr so w o, ext.solve pr so w o ≠ .ok none)
    (h : fit ext hooks st X y sw = .error (e, s)) :
    s.coef = st.coef ∧ s.intercept = st.intercept := by
  unfold fit at h
  split at h
  · cases h
    exact ⟨rfl, rfl⟩
  · rename_i p hp
    unfold fitCore at h
    split at h
    · cases h
      exact ⟨rfl, rfl⟩
    · dsimp only at h
      split at h
      · rename_i es hwm
        rcases es with ⟨e1, s1⟩
        cases h
        have h1 := warmStage_error_state hooks _ p.X2 p.y2 _ _ hwm
        rw [buildDecision_coef, buildDecision_intercept] at h1
        exact h1
      · rename_i st3 hwm
        have h2 := solveStage_error_state ext st3 p e s hns h
        have h1 := warmStage_ok_state hooks _ p.X2 p.y2 st3 hwm
        rw [buildDecision_coef, buildDecision_intercept] at h1
        exact ⟨h2.1.trans h1.1, h2.2.trans h1.2⟩

/-- C7 witness: the amended theorem applied to the failing-solver run. -/
theorem fit_error_preserves_coef_intercept_witness :
    ∃ e s, fit extFailFix hooksFix stFitted [[5], [6]] [1, 2] none = .error (e, s) ∧
      s.coef = stFitted.coef ∧ s.intercept = stFitted.intercept := by
  have hnotok : okState (fit extFailFix hooksFix stFitted [[5], [6]] [1, 2] none)
      = none := by decide
  rcases hE : fit extFailFix hooksFix stFitted [[5], [6]] [1, 2] none with es | s
  · rcases es with ⟨e, s⟩
    refine ⟨e, s, rfl, ?_⟩
    exact fit_error_preserves_coef_intercept extFailFix hooksFix stFitted
      [[5], [6]] [1, 2] none e s (by intro pr so w o hcon; cases hcon) hE
  · rw [hE] at hnotok
    cases hnotok

/-- C10: an estimator that declares no solver-parameterized hyperparameters
(`_cvx_parameter_constraints` is None) cannot complete a warm-start refit on
unchanged data: the membership test in `_set_param_values` iterates the None
mapping and raises `TypeError`. -/
theorem none_constraints_warm_refit_fails
    (ext : Externals) (hooks : Hooks) (st : EstState) (X : Mat) (y : Vec) (sw : Option Vec)
    (p : Prepared) (c : Canon)
    (hp : prepare ext st X y sw = .ok p)
    (hv : validateFirstFail ext.installedSolvers st = none)
    (hws : st.warm_start = true)
    (hcs : st.cvxConstraints = none)
    (hc : st.canonicals = some c)
    (hcx : st.cached_X = some p.X2)
    (hcy : st.cached_y = some p.y2) :
    ∃ st', fit ext hooks st X y sw = .error (.noneIterTypeError, st') := by
  have hbd : buildDecision hooks st p.X2 p.y2 = st :=
    buildDecision_skip hooks st p.X2 p.y2 (by rw [hc]; rfl) hws
  have hspv := set_param_values_none_err
    ({ st with cached_X := some p.X2, cached_y := some p.y2 } : EstState) c hc hcs
  have hwarm := warmStage_push_err hooks st p.X2 p.y2 .noneIterTypeError hws hcx hcy hspv
  refine ⟨{ st with cached_X := some p.X2, cached_y := some p.y2 }, ?_⟩
  unfold fit
  rw [hp]
  unfold fitCore
  rw [hv]
  dsimp only
  rw [hbd, hwarm]

/-- C10 witness: the concrete warm estimator with `_cvx_parameter_constraints
= None`, refit on its cached data. -/
theorem none_constraints_warm_refit_fails_witness :
    ∃ st', fit extOkFix hooksFix stWarmNoCvx [[1], [2]] [1, 2] none
      = .error (.noneIterTypeError, st') :=
  none_constraints_warm_refit_fails extOkFix hooksFix stWarmNoCvx
    [[1], [2]] [1, 2] none prepFix canonFix rfl (by decide) rfl rfl rfl rfl rfl

/-- C8: with a sample-weight vector of the right length, `fit` first
rescales the weights so their sum equals `n_samples`, hands the rescaled
weights to preprocessing, then rescales `X` and `y` by the rescaled weights
— and the rest of `fit` (problem assembly and solving) runs on exactly that
rescaled data. -/
theorem sample_weight_rescaled_before_build
    (ext : Externals) (st : EstState) (X : Mat) (y : Vec) (w : Vec)
    (w' : Vec) (pd : PreData) (r : Mat × Vec)
    (hval : validData X y = true)
    (hlen : w.length = X.length)
    (hsum : w.sum ≠ 0)
    (hw' : w' = rescaleWeight X w)
    (hpd : pd = ext.preprocess X y st.copy_X st.fit_intercept (some w'))
    (hr : r = ext.rescale pd.X1 pd.y1 w') :
    w'.sum = (X.length : ℚ) ∧
    prepare ext st X y (some w) = .ok ⟨r.1, r.2, pd.Xoff, pd.yoff, pd.Xscale⟩ ∧
    (∀ hooks, fit ext hooks st X y (some w)
      = fitCore ext hooks st ⟨r.1, r.2, pd.Xoff, pd.yoff, pd.Xscale⟩) := by
  subst hw'
  subst hpd
  subst hr
  have key : ∀ (L : List ℚ) (c : ℚ), (L.map (fun q => q * c)).sum = L.sum * c := by
    intro L c
    induction L with
    | nil => simp
    | cons a t ih =>
      simp only [List.map, List.sum_cons, ih]
      ring
  have hcw : checkWeights X (some w) = .ok (some (rescaleWeight X w)) := by
    dsimp only [checkWeights]
    rw [if_pos hlen]
  have hpre : prepare ext st X y (some w) = .ok
      ⟨(ext.rescale (ext.preprocess X y st.copy_X st.fit_intercept
          (some (rescaleWeight X w))).X1
        (ext.preprocess X y st.copy_X st.fit_intercept (some (rescaleWeight X w))).y1
        (rescaleWeight X w)).1,
       (ext.rescale (ext.preprocess X y st.copy_X st.fit_intercept
          (some (rescaleWeight X w))).X1
        (ext.preprocess X y st.copy_X st.fit_intercept (some (rescaleWeight X w))).y1
        (rescaleWeight X w)).2,
       (ext.preprocess X y st.copy_X st.fit_intercept (some (rescaleWeight X w))).Xoff,
       (ext.preprocess X y st.copy_X st.fit_intercept (some (rescaleWeight X w))).yoff,
       (ext.preprocess X y st.copy_X st.fit_intercept (some (rescaleWeight X w))).Xscale⟩ := by
    unfold prepare
    rw [if_pos hval, hcw]
  refine ⟨?_, hpre, ?_⟩
  · unfold rescaleWeight
    rw [key]
    field_simp
  · intro hooks
    unfold fit
    rw [hpre]

/-- C8 witness: weights `[1,3]` on two samples are rescaled to `[1/2,3/2]`
(sum 2) and the fit proceeds on the rescaled data. -/
theorem sample_weight_rescaled_before_build_witness :
    (rescaleWeight [[1], [2]] [1, 3]).sum = (([[1], [2]] : Mat).length : ℚ) ∧
    prepare extOkFix stBase [[1], [2]] [1, 2] (some [1, 3]) = .ok
      ⟨[[1], [2]], [1, 2], [0], 0, [1]⟩ ∧
    (∀ hooks, fit extOkFix hooks stBase [[1], [2]] [1, 2] (some [1, 3])
      = fitCore extOkFix hooks stBase ⟨[[1], [2]], [1, 2], [0], 0, [1]⟩) :=
  sample_weight_rescaled_before_build extOkFix stBase [[1], [2]] [1, 2] [1, 3]
    (rescaleWeight [[1], [2]] [1, 3])
    ⟨[[1], [2]], [1, 2], [0], 0, [1]⟩ ([[1], [2]], [1, 2])
    (by decide) (by decide) (by norm_num [List.sum_cons, List.sum_nil]) rfl rfl rfl

/-- C9: when `solver_options` is neither absent nor a dict, `fit` raises a
configuration error identifying `solver_options` during hyperparameter
validation (before any problem is built), and the solver backend is never
consulted: the outcome is identical for every solver implementation. -/
theorem bad_solver_options_rejected
    (ext : Externals) (hooks : Hooks) (st : EstState) (X : Mat) (y : Vec) (sw : Option Vec)
    (p : Prepared)
    (hp : prepare ext st X y sw = .ok p)
    (hso : st.solver_options = some .notDict)
    (hnocvx : ∀ cs, st.cvxConstraints = some cs → alookup cs "solver_options" = none)
    (hothers : ∀ n v, (n, v) ∈ getParams st → n ≠ "solver_options" →
      paramOk ext.installedSolvers st n v = true) :
    fit ext hooks st X y sw = .error (.invalidParameter "solver_options", st) ∧
    (∀ s', fit { ext with solve := s' } hooks st X y sw
      = .error (.invalidParameter "solver_options", st)) := by
  have hbad : paramOk ext.installedSolvers st "solver_options" PValue.otherVal = false := by
    unfold paramOk constraintsFor
    rcases hcc : st.cvxConstraints with _ | cs
    · rfl
    · dsimp only
      rw [hnocvx cs hcc]
      rfl
  have hvf : validateFirstFail ext.installedSolvers st = some "solver_options" := by
    unfold validateFirstFail
    have h1 := hothers "fit_intercept" (.boolVal st.fit_intercept)
      (by simp [getParams]) (by decide)
    have h2 := hothers "copy_X" (.boolVal st.copy_X)
      (by simp [getParams]) (by decide)
    have h3 := hothers "warm_start" (.boolVal st.warm_start)
      (by simp [getParams]) (by decide)
    have h4 := hothers "solver"
      (match st.solver with | none => .noneVal | some s => .strVal s)
      (by simp [getParams]) (by decide)
    have h5 : (match st.solver_options with
        | none => PValue.noneVal
        | some (.dict d) => PValue.dictVal d
        | some .notDict => PValue.otherVal) = PValue.otherVal := by
      rw [hso]
    unfold getParams
    simp only [List.cons_append, List.nil_append, firstFailAux]
    rw [if_pos h1, if_pos h2, if_pos h3, if_pos h4, h5,
      if_neg (by rw [hbad]; exact Bool.false_ne_true)]
  constructor
  · unfold fit
    rw [hp]
    unfold fitCore
    rw [hvf]
  · intro s'
    unfold fit
    rw [show prepare { ext with solve := s' } st X y sw = .ok p from hp]
    unfold fitCore
    rw [show validateFirstFail ({ ext with solve := s' } : Externals).installedSolvers st
      = some "solver_options" from hvf]

/-- C9 witness: the concrete estimator with a non-dict `solver_options`. -/
theorem bad_solver_options_rejected_witness :
    fit extOkFix hooksFix stBadOpts [[1], [2]] [1, 2] none
      = .error (.invalidParameter "solver_options", stBadOpts) ∧
    (∀ s', fit { extOkFix with solve := s' } hooksFix stBadOpts [[1], [2]] [1, 2] none
      = .error (.invalidParameter "solver_options", stBadOpts)) :=
  bad_solver_options_rejected extOkFix hooksFix stBadOpts [[1], [2]] [1, 2] none
    prepFix rfl rfl
    (by intro cs hcs; cases hcs; decide)
    (by
      intro n v hmem hne
      simp only [getParams, stBadOpts, stBase, List.cons_append, List.nil_append,
        List.mem_cons, List.not_mem_nil, or_false, Prod.mk.injEq] at hmem
      rcases hmem with ⟨rfl, rfl⟩ | ⟨rfl, rfl⟩ | ⟨rfl, rfl⟩ | ⟨rfl, rfl⟩ | ⟨rfl, rfl⟩ | ⟨rfl, rfl⟩
      · decide
      · decide
      · decide
      · decide
      · exact absurd rfl hne
      · decide)

end SparseLM
